import Mathlib

/-!
Shallow embedding of the message-relay daemon (src/main.py) and proofs about
its claims.  Text is modelled as `List Char` (ASCII fragment of Python `str`).
-/

namespace ZeiiForward

abbrev Str := List Char

/-- Python whitespace (`str.strip`, regex class for whitespace), ASCII fragment. -/
def pyIsSpace (c : Char) : Bool :=
  c == ' ' || c == '\t' || c == '\n' || c == '\x0d' || c == '\x0b' || c == '\x0c'

/-- ASCII lower-casing, as used by the case-insensitive regex flag `re.I`. -/
def lowerChar (c : Char) : Char :=
  if 'A' ≤ c && c ≤ 'Z' then Char.ofNat (c.toNat + 32) else c

/-- The regex character class A-Za-z0-9. -/
def isAlnumChar (c : Char) : Bool :=
  ('A' ≤ c && c ≤ 'Z') || ('a' ≤ c && c ≤ 'z') || ('0' ≤ c && c ≤ '9')

/-- Python `str.lstrip()`. -/
def lstrip (l : Str) : Str := l.dropWhile pyIsSpace

/-- Python `str.rstrip()`. -/
def rstrip (l : Str) : Str := (l.reverse.dropWhile pyIsSpace).reverse

/-- Python `str.strip()`. -/
def pyStrip (l : Str) : Str := rstrip (lstrip l)

/-- Whitespace other than a newline. -/
def isBlankNN (c : Char) : Bool := pyIsSpace c && !(c == '\n')

/-- Does the regex `\n\s*\n` (the block separator of `_first_block`, main.py line 69)
match at the head of `l`?  Since the shortest witnessing second newline is reachable
through non-newline whitespace only, this is: a newline whose following run of
non-newline whitespace ends at another newline. -/
def blankGapAt (l : Str) : Bool :=
  match l with
  | '\n' :: rest => (rest.dropWhile isBlankNN).head? == some '\n'
  | _ => false

/-- `re.split(r"\n\s*\n", s)[0]`: the prefix of `s` before the leftmost match of the
block separator (the whole of `s` when there is no match). -/
def takeFirstPart : Str → Str
  | [] => []
  | c :: rest => if blankGapAt (c :: rest) then [] else c :: takeFirstPart rest

/-- `_first_block` (main.py lines 65-70): split the stripped text on blank lines and
keep the first part, stripped. -/
def first_block (t : Str) : Str := pyStrip (takeFirstPart (pyStrip t))

/-- Match of the regex `Timeframe:\s*([A-Za-z0-9]+)` (flag `re.I`) anchored at the
head of `l`: the 10-character label case-insensitively equal to "timeframe:", then a
(greedy, possibly empty) whitespace run, then a nonempty alphanumeric run.  Returns
`m.group(0)`: the full matched text. -/
def tfMatchAt (l : Str) : Option Str :=
  let label := l.take 10
  if label.map lowerChar = "timeframe:".data then
    let rest := l.drop 10
    let ws := rest.takeWhile pyIsSpace
    let al := (rest.dropWhile pyIsSpace).takeWhile isAlnumChar
    if al.isEmpty then none else some (label ++ ws ++ al)
  else none

/-- `re.search` of the Timeframe pattern: leftmost match, scanning start positions
left to right. -/
def tfSearch : Str → Option Str
  | [] => none
  | c :: rest =>
    match tfMatchAt (c :: rest) with
    | some m => some m
    | none => tfSearch rest

/-- `_extract_timeframe_from_text` (main.py lines 72-74):
`m = re.search(r"Timeframe:\s*([A-Za-z0-9]+)", t, re.I)`, returning
`m.group(0).strip()` when a match exists. -/
def extract_timeframe_from_text (t : Str) : Option Str :=
  (tfSearch t).map pyStrip

/-- Does `Timeframe:\s*[A-Za-z0-9]+\s*$` match precisely the whole of `l`
(the `$` anchored at the end, as in the `re.sub` of main.py line 124)?  The
whitespace run after the alphanumeric run must reach the end of the string. -/
def tfTailMatch (l : Str) : Bool :=
  ((l.take 10).map lowerChar == "timeframe:".data) &&
    (let rest := (l.drop 10).dropWhile pyIsSpace
     let al := rest.takeWhile isAlnumChar
     !al.isEmpty && (rest.drop al.length).all pyIsSpace)

/-- Does `\n?Timeframe:\s*[A-Za-z0-9]+\s*$` match from the head of `l` to its end?
The optional leading newline is consumed when present (without it the label cannot
start with a newline). -/
def tfSuffixAt (l : Str) : Bool :=
  match l with
  | '\n' :: rest => tfTailMatch rest
  | _ => tfTailMatch l

/-- `re.sub(r"\n?Timeframe:\s*[A-Za-z0-9]+\s*$", "", base_text, flags=re.I)`
(main.py line 124): delete from the leftmost position whose suffix matches the
pattern through the end of the string. -/
def subTF : Str → Str
  | [] => []
  | c :: rest => if tfSuffixAt (c :: rest) then [] else c :: subTF rest

/-- Python `"\n".join`-style line view: split on newline characters
(`str.split("\n")`). -/
def linesOf : Str → List Str
  | [] => [[]]
  | '\n' :: rest => [] :: linesOf rest
  | c :: rest =>
    match linesOf rest with
    | [] => [[c]]
    | ln :: lns => (c :: ln) :: lns

/-- A line matching the Timeframe pattern: `re.search` of
`Timeframe:\s*[A-Za-z0-9]+` succeeds within the line. -/
def isTimeframeLine (ln : Str) : Bool := (tfSearch ln).isSome

/-- A Discord embed footer: optional `text` field (absent keys and `None` values
both map to `none`, matching `footer.get("text") or ""`). -/
structure Footer where
  text : Option Str := none
  deriving DecidableEq

instance : Inhabited Footer := ⟨{}⟩

/-- A Discord embed: optional `description`, optional `footer` object. -/
structure Embed where
  description : Option Str := none
  footer : Option Footer := none
  deriving DecidableEq

instance : Inhabited Embed := ⟨{}⟩

/-- A Discord message as consumed by the extractor: optional free-text `content`
and an optional list of embeds, each possibly `None`
(`msg.get("content") or ""`, `msg.get("embeds") or []`, `embeds[0] or` empty dict). -/
structure Msg where
  content : Option Str := none
  embeds : Option (List (Option Embed)) := none
  deriving DecidableEq

instance : Inhabited Msg := ⟨{}⟩

/-- The `desc` variable of `build_signal_text_from_msg` (main.py lines 86-91):
the stripped description of the first embed, empty when there is no embed. -/
def desc_of (m : Msg) : Str :=
  match m.embeds.getD [] with
  | [] => []
  | e? :: _ => pyStrip ((e?.getD {}).description.getD [])

/-- The `footer_tf_line` variable of `build_signal_text_from_msg` (main.py lines
87-102): the Timeframe match extracted from the first embed's footer text, when the
footer text is nonempty and holds one. -/
def footer_tf_line_of (m : Msg) : Option Str :=
  match m.embeds.getD [] with
  | [] => none
  | e? :: _ =>
    let e0 := e?.getD {}
    let footer_txt := pyStrip ((e0.footer.getD {}).text.getD [])
    if footer_txt ≠ [] then extract_timeframe_from_text footer_txt else none

/-- `build_signal_text_from_msg` (main.py lines 76-127).  The `content` variable
is the stripped message content; the base text is the first block of the embed
description when that is nonempty, else of the content; a Timeframe line already
inside the base block is moved to the end via the `re.sub` deletion, otherwise a
Timeframe match from the full content, else from the embed footer, is appended. -/
def build_signal_text_from_msg (m : Msg) : Str :=
  let content := pyStrip (m.content.getD [])
  let base_text := first_block (if desc_of m ≠ [] then desc_of m else content)
  match extract_timeframe_from_text base_text with
  | none =>
    let tf_from_content :=
      if content ≠ [] then extract_timeframe_from_text content else none
    let tf_line :=
      match tf_from_content with
      | some t => some t
      | none => footer_tf_line_of m
    match tf_line with
    | some tf => pyStrip (rstrip base_text ++ '\n' :: tf)
    | none => pyStrip base_text
  | some tf_inline => pyStrip (rstrip (subTF base_text) ++ '\n' :: tf_inline)

/-- The skip test of `forward_to_webhooks` (main.py lines 134-137): the message is
posted to the webhooks iff its signal text is nonempty. -/
def forwards_message (m : Msg) : Bool := !(build_signal_text_from_msg m).isEmpty

/-- Decimal digit. -/
def isDigitChar (c : Char) : Bool := '0' ≤ c && c ≤ '9'

/-- A nonempty all-digit identifier string, the shape on which `int()` (as used on
message ids) is modelled. -/
def isNumericId (s : Str) : Bool := !s.isEmpty && s.all isDigitChar

/-- Python `int()` on a nonnegative decimal digit string (the numeric-string
message identifiers of the remote API). -/
def natOfDigits (s : Str) : Nat :=
  s.foldl (fun a c => a * 10 + (c.toNat - '0'.toNat)) 0

/-- A fetched message: its identifier string (`m["id"]`) plus the fields the
extractor reads. -/
structure RawMsg where
  id : Str
  body : Msg := {}
  deriving DecidableEq

/-- Comparison by numeric identifier, the sort key `int(m["id"])` of main.py
line 62. -/
def idLE (a b : RawMsg) : Prop := natOfDigits a.id ≤ natOfDigits b.id

instance : DecidableRel idLE := fun _ _ => Nat.decLe _ _

instance : IsTotal RawMsg idLE := ⟨fun _ _ => Nat.le_total _ _⟩

instance : IsTrans RawMsg idLE := ⟨fun _ _ _ => Nat.le_trans⟩

/-- `sorted(data, key=lambda m: int(m["id"]))` (main.py line 62): stable ascending
sort of the batch by numeric identifier, oldest first.  Python `sorted` is a
stable ascending sort; insertion sort with the total preorder `idLE` is the same
function. -/
def sort_by_id (batch : List RawMsg) : List RawMsg :=
  batch.insertionSort idLE

/-- The dedup filter of the main loop (main.py lines 181-184): keep a message when
no `last_id` is known, or when its numeric identifier exceeds `int(last_id)`. -/
def select_new (lastId : Option Str) (msgs : List RawMsg) : List RawMsg :=
  msgs.filter fun m =>
    match lastId with
    | none => true
    | some l => decide (natOfDigits l < natOfDigits m.id)

/-- The `last_id` update of the main loop (main.py lines 186-191): when new
messages exist, `last_id` becomes the identifier of the last (newest) of them;
otherwise the state is unchanged. -/
def next_last_id (lastId : Option Str) (news : List RawMsg) : Option Str :=
  match news.getLast? with
  | some m => some m.id
  | none => lastId

/-- `sleep_until_next_tick` (main.py lines 153-164), wake-time computation on exact
(rational) wall-clock time: `period_start = (now // base) * base`, next tick
`period_start + base + offset`, or `period_start + offset` when `now` is still
before it. -/
def next_tick (base offset now : ℚ) : ℚ :=
  let period_start : ℚ := ((⌊now / base⌋ : ℤ) : ℚ) * base
  if now < period_start + offset then period_start + offset
  else period_start + base + offset

/-- A Python value as produced by `json.loads`: None, bool, int, str, list, dict. -/
inductive PyVal where
  | pyNone : PyVal
  | pyBool : Bool → PyVal
  | pyInt : Int → PyVal
  | pyStr : Str → PyVal
  | pyList : List PyVal → PyVal
  | pyDict : List (Str × PyVal) → PyVal

/-- The empty poll state returned by `load_state` (main.py line 44). -/
def emptyState : PyVal := PyVal.pyDict [("last_id".data, PyVal.pyNone)]

/-- `load_state` (main.py lines 38-44), with the filesystem and `json.loads`
abstracted: `file = none` models a missing (or unreadable: the read happens inside
the same `try`) state file; `loads c = none` models `json.loads` raising on content
`c`, which the bare `except` swallows.  Any successfully parsed value is returned
as is. -/
def load_state_with (loads : Str → Option PyVal) (file : Option Str) : PyVal :=
  match file with
  | none => emptyState
  | some c =>
    match loads c with
    | some v => v
    | none => emptyState

/-- JSON whitespace. -/
def jsonWs (c : Char) : Bool := c == ' ' || c == '\t' || c == '\n' || c == '\x0d'

/-- Modelled from the spec: partial model of Python `json.loads` (library code, not
part of src/), §6 "Persisted state file ... JSON".  It covers the JSON scalars
`null`, `true`, `false` and decimal integers, on which it agrees with `json.loads`;
every other input is mapped to `none` (our stand-in for a raised decode error), so
it is used below only at inputs inside the covered fragment. -/
def json_loads_model (s : Str) : Option PyVal :=
  let t := s.dropWhile jsonWs
  let fin : PyVal → Str → Option PyVal := fun v rest =>
    if rest.dropWhile jsonWs = [] then some v else none
  if t.take 4 = "null".data then fin PyVal.pyNone (t.drop 4)
  else if t.take 4 = "true".data then fin (PyVal.pyBool true) (t.drop 4)
  else if t.take 5 = "false".data then fin (PyVal.pyBool false) (t.drop 5)
  else
    let neg : Bool := t.head? == some '-'
    let t' := if neg then t.tail else t
    let ds := t'.takeWhile isDigitChar
    if ds = [] || (ds.length > 1 && ds.head? == some '0') then none
    else
      let n : Int := (natOfDigits ds : Int)
      fin (PyVal.pyInt (if neg then -n else n)) (t'.drop ds.length)

/-- The exact shape of a full match of `Timeframe:\s*([A-Za-z0-9]+)` (re.I): the
ten-character label whose lower-casing is "timeframe:", a whitespace run, and a
nonempty alphanumeric run. -/
def TfMatchShape (s : Str) : Prop :=
  ∃ lab ws al, s = lab ++ ws ++ al ∧ lab.map lowerChar = "timeframe:".data ∧
    (∀ c ∈ ws, pyIsSpace c = true) ∧ al ≠ [] ∧ ∀ c ∈ al, isAlnumChar c = true

/-- Replace an absent footer text by the empty default, as
`(footer.get("text") or "")` does. -/
def coalesceFooter (f : Footer) : Footer := { text := some (f.text.getD []) }

/-- Replace an embed's absent fields by their empty defaults, as the `or` defaults
of main.py lines 90-95 do. -/
def coalesceEmbed (e : Embed) : Embed :=
  { description := some (e.description.getD [])
    footer := some (coalesceFooter (e.footer.getD {})) }

/-- Replace every absent optional field of a message by the empty default the code
coalesces it to (`or ""`, `or []`, `or` empty dict). -/
def coalesceMsg (m : Msg) : Msg :=
  { content := some (m.content.getD [])
    embeds := some ((m.embeds.getD []).map fun e? => some (coalesceEmbed (e?.getD {}))) }

/-- Fetched message with identifier "98" and no usable fields. -/
def msg98 : RawMsg := { id := "98".data }

/-- Fetched message with identifier "100". -/
def msg100 : RawMsg := { id := "100".data }

/-- Fetched message with identifier "101". -/
def msg101 : RawMsg := { id := "101".data }

/-- Fetched message with identifier "103". -/
def msg103 : RawMsg := { id := "103".data }

/-- The batch of the dedup example, as listed in the spec. -/
def batch_c5 : List RawMsg := [msg98, msg100, msg101, msg103]

/-- The failing input of C1: free-text content whose Timeframe line is followed by
another line in the same block. -/
def msg_c1 : Msg := { content := some "Timeframe: 15m\nhello".data }

/-- The example message of C2: content only, Timeframe in the second
blank-line-delimited block. -/
def msg_c2 : Msg := { content := some "BUY EURUSD\nEntry 1.10\n\nTimeframe: 15m\n\nGood luck".data }

/-- The counterexample message of C3: no content, no embed description, but an
embed footer text holding a Timeframe line. -/
def msg_c3 : Msg := { embeds := some [some { footer := some { text := some "Timeframe: 15m".data } }] }

/-! ### Helper lemmas -/

theorem space_not_alnum {c : Char} (h : pyIsSpace c = true) : isAlnumChar c = false := by
  simp only [pyIsSpace, Bool.or_eq_true, beq_iff_eq] at h
  rcases h with ((((rfl | rfl) | rfl) | rfl) | rfl) | rfl <;> rfl

theorem alnum_not_space {c : Char} (h : isAlnumChar c = true) : pyIsSpace c = false := by
  cases hs : pyIsSpace c with
  | false => rfl
  | true => rw [space_not_alnum hs] at h; exact Bool.noConfusion h

theorem lowerChar_of_space {c : Char} (h : pyIsSpace c = true) : lowerChar c = c := by
  simp only [pyIsSpace, Bool.or_eq_true, beq_iff_eq] at h
  rcases h with ((((rfl | rfl) | rfl) | rfl) | rfl) | rfl <;> rfl

theorem lower_t_not_space {c : Char} (h : lowerChar c = 't') : pyIsSpace c = false := by
  cases hs : pyIsSpace c with
  | false => rfl
  | true =>
    rw [lowerChar_of_space hs] at h
    subst h
    exact absurd hs (by decide)

theorem lstrip_eq_self {l : Str} (h : ∀ c, l.head? = some c → pyIsSpace c = false) :
    lstrip l = l := by
  cases l with
  | nil => rfl
  | cons c rest =>
    unfold lstrip
    rw [List.dropWhile_cons, h c rfl]
    simp

theorem rstrip_eq_self {l : Str} (h : ∀ c, l.getLast? = some c → pyIsSpace c = false) :
    rstrip l = l := by
  unfold rstrip
  cases hr : l.reverse with
  | nil =>
    have hl : l = [] := List.reverse_eq_nil_iff.mp hr
    subst hl; rfl
  | cons a t =>
    have ha : l.getLast? = some a := by rw [← List.head?_reverse, hr]; rfl
    rw [List.dropWhile_cons, h a ha]
    simp only [Bool.false_eq_true, if_false]
    rw [← hr, List.reverse_reverse]

theorem pyStrip_eq_self {l : Str} (h1 : ∀ c, l.head? = some c → pyIsSpace c = false)
    (h2 : ∀ c, l.getLast? = some c → pyIsSpace c = false) : pyStrip l = l := by
  unfold pyStrip
  rw [lstrip_eq_self h1, rstrip_eq_self h2]

theorem tfMatchAt_shape {l m : Str} (h : tfMatchAt l = some m) :
    m <+: l ∧ TfMatchShape m := by
  simp only [tfMatchAt] at h
  split at h
  case isFalse => exact absurd h (by simp)
  case isTrue hlab =>
    split at h
    case isTrue => exact absurd h (by simp)
    case isFalse hne =>
      injection h with h'
      subst h'
      constructor
      · refine ⟨((l.drop 10).dropWhile pyIsSpace).dropWhile isAlnumChar, ?_⟩
        rw [List.append_assoc, List.append_assoc, List.takeWhile_append_dropWhile,
          List.takeWhile_append_dropWhile, List.take_append_drop]
      · refine ⟨l.take 10, (l.drop 10).takeWhile pyIsSpace,
          ((l.drop 10).dropWhile pyIsSpace).takeWhile isAlnumChar, rfl, hlab,
          fun c hc => List.mem_takeWhile_imp hc, ?_, fun c hc => List.mem_takeWhile_imp hc⟩
        simpa [List.isEmpty_iff] using hne

theorem tfSearch_shape {t m : Str} (h : tfSearch t = some m) : m <:+: t ∧ TfMatchShape m := by
  induction t with
  | nil => exact absurd h (by simp [tfSearch])
  | cons c rest ih =>
    have step : tfSearch (c :: rest) = (match tfMatchAt (c :: rest) with
      | some m' => some m' | none => tfSearch rest) := rfl
    rw [step] at h
    cases hm : tfMatchAt (c :: rest) with
    | some m' =>
      rw [hm] at h
      injection h with h'
      subst h'
      obtain ⟨hp, hs⟩ := tfMatchAt_shape hm
      exact ⟨hp.isInfix, hs⟩
    | none =>
      rw [hm] at h
      obtain ⟨hi, hs⟩ := ih h
      exact ⟨List.infix_cons hi, hs⟩

theorem tfShape_ne_nil {s : Str} (h : TfMatchShape s) : s ≠ [] := by
  obtain ⟨lab, ws, al, rfl, hlab, -, -, -⟩ := h
  cases lab with
  | nil => exact absurd hlab (by decide)
  | cons c0 lab' => simp

theorem tfShape_head {s : Str} (h : TfMatchShape s) :
    ∀ c, s.head? = some c → pyIsSpace c = false := by
  obtain ⟨lab, ws, al, rfl, hlab, -, -, -⟩ := h
  cases lab with
  | nil => exact absurd hlab (by decide)
  | cons c0 lab' =>
    intro c hc
    have h0 : lowerChar c0 = 't' := by
      have h1 := congrArg List.head? hlab
      simpa using h1
    have hc0 : c = c0 := by
      have : some c0 = some c := hc
      injection this with h2
      exact h2.symm
    subst hc0
    exact lower_t_not_space h0

theorem tfShape_last {s : Str} (h : TfMatchShape s) :
    ∀ c, s.getLast? = some c → pyIsSpace c = false := by
  obtain ⟨lab, ws, al, rfl, hlab, hws, hne, hal⟩ := h
  rcases List.eq_nil_or_concat al with rfl | ⟨L, a, rfl⟩
  · exact absurd rfl hne
  · intro c hc
    have hgl : (lab ++ ws ++ List.concat L a).getLast? = some a := by
      have hre : lab ++ ws ++ List.concat L a = (lab ++ (ws ++ L)) ++ [a] := by
        simp [List.concat_eq_append, List.append_assoc]
      rw [hre, List.getLast?_concat]
    rw [hgl] at hc
    injection hc with h2
    subst h2
    have ha : isAlnumChar a = true := hal a (by simp [List.concat_eq_append])
    exact alnum_not_space ha

theorem tfShape_strip {s : Str} (h : TfMatchShape s) : pyStrip s = s :=
  pyStrip_eq_self (tfShape_head h) (tfShape_last h)

theorem extract_tf_eq {t s : Str} (h : extract_timeframe_from_text t = some s) :
    tfSearch t = some s ∧ s <:+: t ∧ TfMatchShape s := by
  unfold extract_timeframe_from_text at h
  cases hm : tfSearch t with
  | none => rw [hm] at h; exact absurd h (by simp)
  | some m =>
    rw [hm] at h
    injection h with h'
    obtain ⟨hi, hs⟩ := tfSearch_shape hm
    have hstrip : pyStrip m = m := tfShape_strip hs
    rw [hstrip] at h'
    subst h'
    exact ⟨rfl, hi, hs⟩

theorem footer_tf_shape {m : Msg} {tf : Str} (h : footer_tf_line_of m = some tf) :
    TfMatchShape tf := by
  simp only [footer_tf_line_of] at h
  split at h
  · exact absurd h (by simp)
  · split at h
    · exact (extract_tf_eq h).2.2
    · exact absurd h (by simp)

theorem pyStrip_newline_cons {s : Str} (h : TfMatchShape s) : pyStrip ('\n' :: s) = s := by
  have h1 : lstrip ('\n' :: s) = lstrip s := by
    unfold lstrip
    rw [List.dropWhile_cons, show pyIsSpace '\n' = true from by decide]
    simp
  unfold pyStrip
  rw [h1]
  have h2 := tfShape_strip h
  unfold pyStrip at h2
  exact h2

theorem coalesce_content (m : Msg) :
    pyStrip ((coalesceMsg m).content.getD []) = pyStrip (m.content.getD []) := rfl

theorem coalesce_desc (m : Msg) : desc_of (coalesceMsg m) = desc_of m := by
  rcases m with ⟨c, es⟩
  cases es with
  | none => rfl
  | some l =>
    cases l with
    | nil => rfl
    | cons e? rest => rfl

theorem coalesce_footer_tf (m : Msg) :
    footer_tf_line_of (coalesceMsg m) = footer_tf_line_of m := by
  rcases m with ⟨c, es⟩
  cases es with
  | none => rfl
  | some l =>
    cases l with
    | nil => rfl
    | cons e? rest => rfl

/-! ### Claim theorems -/

/-- C1 (code bug evaluation): the claim — at most one Timeframe-pattern line in any
extractor output, and last when present — matches the function's own docstring
("Garantiert, dass am Ende genau EINE Timeframe-Zeile steht") but the code breaks
it: on content "Timeframe: 15m\nhello" the `re.sub` of line 124 only deletes a
*trailing* Timeframe line, so the inline one is kept in place and appended again,
yielding two Timeframe lines with the first one not last. -/
theorem c1_duplicate_timeframe_lines :
    build_signal_text_from_msg msg_c1 = "Timeframe: 15m\nhello\nTimeframe: 15m".data ∧
      (linesOf "Timeframe: 15m\nhello\nTimeframe: 15m".data).countP isTimeframeLine = 2 := by
  decide

/-- C2 counterexample: on the spec's example message the extractor does *not*
return "BUY EURUSD\nEntry 1.10" — the claim is false on the code. -/
theorem c2_counterexample :
    build_signal_text_from_msg msg_c2 ≠ "BUY EURUSD\nEntry 1.10".data := by
  decide

/-- C2 amended: the base text is indeed the first blank-line-delimited block, but
line 113 searches the *full* content for a Timeframe line, so the Timeframe of the
second block is found and appended: the extractor returns
"BUY EURUSD\nEntry 1.10\nTimeframe: 15m". -/
theorem c2_amended_timeframe_found_in_full_content :
    build_signal_text_from_msg msg_c2 = "BUY EURUSD\nEntry 1.10\nTimeframe: 15m".data := by
  decide

/-- C3 counterexample: a message with no content and no embed description but a
Timeframe line in the embed footer text yields a nonempty output, and the
forwarder posts it — the "regardless of any other message fields" part of the
claim is false on the code. -/
theorem c3_counterexample :
    build_signal_text_from_msg msg_c3 ≠ [] ∧ forwards_message msg_c3 = true := by
  decide

/-- C3 amended: when both the content and the first embed's description strip to
empty, the extractor output is exactly the Timeframe match from the embed footer
text when there is one, and empty otherwise; the message is forwarded iff such a
footer Timeframe exists. -/
theorem c3_amended_empty_unless_footer_timeframe (m : Msg)
    (hc : pyStrip (m.content.getD []) = []) (hd : desc_of m = []) :
    build_signal_text_from_msg m = (footer_tf_line_of m).getD [] ∧
      forwards_message m = (footer_tf_line_of m).isSome := by
  have hb : build_signal_text_from_msg m = (footer_tf_line_of m).getD [] := by
    have hkey : build_signal_text_from_msg m =
        (match footer_tf_line_of m with
          | some tf => pyStrip (rstrip [] ++ '\n' :: tf)
          | none => pyStrip ([] : Str)) := by
      simp only [build_signal_text_from_msg, hc, hd]
      rfl
    rw [hkey]
    cases hf : footer_tf_line_of m with
    | none => rfl
    | some tf =>
      have hstrip := pyStrip_newline_cons (footer_tf_shape hf)
      simpa using hstrip
  refine ⟨hb, ?_⟩
  unfold forwards_message
  rw [hb]
  cases hf : footer_tf_line_of m with
  | none => rfl
  | some tf =>
    have hne : tf ≠ [] := tfShape_ne_nil (footer_tf_shape hf)
    simp [List.isEmpty_eq_false.mpr hne]

/-- Witness for the amended C3 at the counterexample message. -/
theorem c3_amended_witness :
    build_signal_text_from_msg msg_c3 = (footer_tf_line_of msg_c3).getD [] ∧
      forwards_message msg_c3 = (footer_tf_line_of msg_c3).isSome :=
  c3_amended_empty_unless_footer_timeframe msg_c3 (by decide) (by decide)

/-- C4 counterexample: on the single-line text "ab Timeframe: 15m cd" the matched
line is the whole text, but `_extract_timeframe_from_text` returns only
"Timeframe: 15m" — it does not return the entire text of the matched line, and
formatting around the label on that line is dropped. -/
theorem c4_counterexample :
    linesOf "ab Timeframe: 15m cd".data = ["ab Timeframe: 15m cd".data] ∧
      extract_timeframe_from_text "ab Timeframe: 15m cd".data
        = some "Timeframe: 15m".data ∧
      "Timeframe: 15m".data ≠ "ab Timeframe: 15m cd".data := by
  decide

/-- C4 amended: the function returns the entire *regex match* (`m.group(0)`), a
contiguous substring of the input consisting of the "Timeframe:" label, the
following whitespace run and the alphanumeric value — more than the captured
value, but not the whole line: text before the label or after the value is not
included. -/
theorem c4_amended_full_match_substring (t s : Str)
    (h : extract_timeframe_from_text t = some s) : s <:+: t ∧ TfMatchShape s :=
  ⟨(extract_tf_eq h).2.1, (extract_tf_eq h).2.2⟩

/-- Witness for the amended C4 at a concrete input. -/
theorem c4_amended_witness :
    "Timeframe: 15m".data <:+: "ab Timeframe: 15m cd".data ∧
      TfMatchShape "Timeframe: 15m".data :=
  c4_amended_full_match_substring "ab Timeframe: 15m cd".data "Timeframe: 15m".data
    (by decide)

/-- C5: with persisted last identifier "100" and any ordering of the fetched batch
98/100/101/103, exactly the messages 101 and 103 are selected, in ascending order,
and the new persisted identifier is "103"; moreover no message whose numeric
identifier is ≤ the persisted one is ever selected. -/
theorem c5_dedup_example (batch : List RawMsg) (h : batch.Perm batch_c5) :
    (select_new (some "100".data) (sort_by_id batch) = [msg101, msg103] ∧
      next_last_id (some "100".data) (select_new (some "100".data) (sort_by_id batch))
        = some "103".data) ∧
    ∀ (l : Str) (msgs : List RawMsg) (x : RawMsg), x ∈ select_new (some l) msgs →
      natOfDigits l < natOfDigits x.id := by
  constructor
  · have hmem : batch ∈ batch_c5.permutations' := List.mem_permutations'.mpr h
    exact (by decide : ∀ b ∈ batch_c5.permutations',
      select_new (some "100".data) (sort_by_id b) = [msg101, msg103] ∧
      next_last_id (some "100".data) (select_new (some "100".data) (sort_by_id b))
        = some "103".data) batch hmem
  · intro l msgs x hx
    unfold select_new at hx
    have h2 := (List.mem_filter.mp hx).2
    exact of_decide_eq_true h2

/-- Witness for C5 at the batch in its listed order. -/
theorem c5_dedup_example_witness :
    select_new (some "100".data) (sort_by_id batch_c5) = [msg101, msg103] ∧
      next_last_id (some "100".data) (select_new (some "100".data) (sort_by_id batch_c5))
        = some "103".data :=
  (c5_dedup_example batch_c5 (List.Perm.refl batch_c5)).1

/-- C6: with base period 300 and offset 5, for a wall-clock time T seconds past a
period boundary 300·k, the computed next tick is boundary + 305 when 5 ≤ T < 305
and boundary + 5 when 0 ≤ T < 5. -/
theorem c6_next_tick_aligned (k : ℤ) (T : ℚ) :
    (5 ≤ T → T < 305 → next_tick 300 5 (300 * (k : ℚ) + T) = 300 * (k : ℚ) + 305) ∧
    (0 ≤ T → T < 5 → next_tick 300 5 (300 * (k : ℚ) + T) = 300 * (k : ℚ) + 5) := by
  have hdiv : (300 * (k : ℚ) + T) / 300 = (k : ℚ) + T / 300 := by
    field_simp
    ring
  constructor
  · intro h5 h305
    rcases lt_or_le T 300 with h300 | h300
    · have hfl : ⌊T / 300⌋ = 0 := by
        rw [Int.floor_eq_zero_iff, Set.mem_Ico]
        refine ⟨div_nonneg (by linarith) (by norm_num), ?_⟩
        rw [div_lt_one (by norm_num : (0:ℚ) < 300)]
        exact h300
      simp only [next_tick, hdiv, Int.floor_int_add, hfl]
      rw [if_neg (by push_cast; linarith)]
      push_cast
      ring
    · have hfl : ⌊T / 300⌋ = 1 := by
        rw [Int.floor_eq_iff]
        constructor
        · rw [Int.cast_one, one_le_div (by norm_num : (0:ℚ) < 300)]
          exact h300
        · rw [Int.cast_one, div_lt_iff₀ (by norm_num : (0:ℚ) < 300)]
          linarith
      simp only [next_tick, hdiv, Int.floor_int_add, hfl]
      rw [if_pos (by push_cast; linarith)]
      push_cast
      ring
  · intro h0 h5
    have hfl : ⌊T / 300⌋ = 0 := by
      rw [Int.floor_eq_zero_iff, Set.mem_Ico]
      refine ⟨div_nonneg h0 (by norm_num), ?_⟩
      rw [div_lt_one (by norm_num : (0:ℚ) < 300)]
      linarith
    simp only [next_tick, hdiv, Int.floor_int_add, hfl]
    rw [if_pos (by push_cast; linarith)]
    push_cast
    ring

/-- Witness for C6 at T = 10 past boundary 300 and at T = 2 past boundary 0. -/
theorem c6_next_tick_aligned_witness :
    next_tick 300 5 (300 * ((1 : ℤ) : ℚ) + 10) = 300 * ((1 : ℤ) : ℚ) + 305 ∧
      next_tick 300 5 (300 * ((0 : ℤ) : ℚ) + 2) = 300 * ((0 : ℤ) : ℚ) + 5 :=
  ⟨(c6_next_tick_aligned 1 10).1 (by norm_num) (by norm_num),
   (c6_next_tick_aligned 0 2).2 (by norm_num) (by norm_num)⟩

/-- C7 counterexample: the file content "42" parses as JSON (to the integer 42),
yet it is not of the persisted form — a corrupt persisted state — and `load_state`
returns it verbatim instead of the empty state. -/
theorem c7_counterexample :
    load_state_with json_loads_model (some "42".data) = PyVal.pyInt 42 ∧
      load_state_with json_loads_model (some "42".data) ≠ emptyState := by
  refine ⟨rfl, fun hcontra => ?_⟩
  rw [show load_state_with json_loads_model (some "42".data) = PyVal.pyInt 42 from rfl]
    at hcontra
  exact PyVal.noConfusion hcontra

/-- C7 amended: `load_state` returns the empty state whenever the state file is
missing/unreadable or its content fails to parse as JSON (the decode error is
swallowed inside the function, never propagated), but content that parses as *any*
JSON value — even one not of the persisted form — is returned as is.  Stated for
every possible parser behaviour, hence for `json.loads` in particular. -/
theorem c7_amended_parse_failures_swallowed (loads : Str → Option PyVal)
    (file : Option Str) :
    (file = none → load_state_with loads file = emptyState) ∧
    (∀ c, file = some c → loads c = none → load_state_with loads file = emptyState) ∧
    (∀ c v, file = some c → loads c = some v → load_state_with loads file = v) := by
  refine ⟨?_, ?_, ?_⟩
  · rintro rfl
    rfl
  · rintro c rfl hn
    show (match loads c with | some v => v | none => emptyState) = emptyState
    rw [hn]
  · rintro c v rfl hs
    show (match loads c with | some v => v | none => emptyState) = v
    rw [hs]

/-- Witness for the amended C7: missing file, and unparsable content. -/
theorem c7_amended_witness :
    load_state_with json_loads_model none = emptyState ∧
      load_state_with json_loads_model (some "oops".data) = emptyState :=
  ⟨(c7_amended_parse_failures_swallowed json_loads_model none).1 rfl,
   (c7_amended_parse_failures_swallowed json_loads_model (some "oops".data)).2.1
     "oops".data rfl (by rfl)⟩

/-- C8: the extractor is deterministic — two calls on the same input yield the
same output.  In this embedding the function is pure by construction, faithfully:
the Python function reads no mutable or global state (it uses only its argument,
locals, and `re` on constant patterns) and writes nothing. -/
theorem c8_extractor_deterministic (m₁ m₂ : Msg) (h : m₁ = m₂) :
    build_signal_text_from_msg m₁ = build_signal_text_from_msg m₂ := by
  rw [h]

/-- Witness for C8 at the example message. -/
theorem c8_extractor_deterministic_witness :
    build_signal_text_from_msg msg_c2 = build_signal_text_from_msg msg_c2 :=
  c8_extractor_deterministic msg_c2 msg_c2 rfl

/-- C9: on a first run (`last_id` is None) the dedup filter keeps every fetched
message, and the batch is processed as the ascending-identifier permutation of the
fetch.  The hypothesis records the remote interface contract that identifiers are
numeric strings (on other strings Python `int()` would raise instead). -/
theorem c9_first_run_all_forwarded (batch : List RawMsg)
    (_hids : ∀ x ∈ batch, isNumericId x.id = true) :
    select_new none (sort_by_id batch) = sort_by_id batch ∧
      (sort_by_id batch).Perm batch ∧
      (sort_by_id batch).Pairwise idLE := by
  refine ⟨?_, ?_, ?_⟩
  · unfold select_new
    exact List.filter_eq_self.mpr fun a _ => rfl
  · exact List.perm_insertionSort idLE batch
  · exact List.sorted_insertionSort idLE batch

/-- Witness for C9 on a two-message batch fetched newest-first. -/
theorem c9_first_run_all_forwarded_witness :
    select_new none (sort_by_id [msg101, msg98]) = sort_by_id [msg101, msg98] ∧
      (sort_by_id [msg101, msg98]).Perm [msg101, msg98] ∧
      (sort_by_id [msg101, msg98]).Pairwise idLE :=
  c9_first_run_all_forwarded [msg101, msg98] (by decide)

/-- C10: the extractor is total over messages with missing optional fields — every
absent/None optional field is coalesced to its empty default before use, so the
output on any message equals the output on its fully-coalesced form (and the total
Lean embedding returns a string on every input, mirroring that no operation in the
Python function can raise: every access is guarded by an `or`-default or an
emptiness test). -/
theorem c10_optional_fields_coalesced (m : Msg) :
    build_signal_text_from_msg m = build_signal_text_from_msg (coalesceMsg m) := by
  simp only [build_signal_text_from_msg, coalesce_content, coalesce_desc,
    coalesce_footer_tf]

end ZeiiForward
